import Mathlib

/-!
Shallow embedding of the log-tailing and alert-dispatch core of
`log_watcher_with_alerts/main.py`.

File contents are modelled as byte lists (`List Nat`, each < 256).
`Tailer._read_new_lines` opens the file in text mode with
`encoding="utf-8", errors="ignore"`, seeks to `self.position`, iterates the
decoded lines (universal-newline translation, trailing newline stripped by
`rstrip("\n")`), tests each line with `self.config.pattern.search`, enqueues
matches, and finally sets `self.position = handle.tell()` (the byte size of
the file, or the old position if it already lies past end-of-file).

Patterns are embedded as `RegularExpression Char` from Mathlib;
`re.Pattern.search` is the unanchored search `patternSearch` below.
-/

/-- UTF-8 decoder state: either between characters, or inside a multi-byte
sequence with `acc` the code point accumulated so far, `need` continuation
bytes still expected, and `lo ≤ b ≤ hi` the admissible range for the next
byte (the first continuation after `E0`/`ED`/`F0`/`F4` is restricted to
exclude overlong forms, surrogates and code points above `U+10FFFF`, as
CPython's UTF-8 decoder does). -/
inductive Utf8State where
  | clean
  | pend (acc need lo hi : Nat)
deriving DecidableEq, Repr

/-- Process one byte as the start of a (possibly multi-byte) sequence.
Invalid lead bytes (`0x80`–`0xC1`, `0xF5`–`0xFF`) are dropped. -/
def leadStep (b : Nat) : Utf8State × List Char :=
  if b < 0x80 then (Utf8State.clean, [Char.ofNat b])
  else if b < 0xC2 then (Utf8State.clean, [])
  else if b ≤ 0xDF then (Utf8State.pend (b - 0xC0) 1 0x80 0xBF, [])
  else if b = 0xE0 then (Utf8State.pend 0 2 0xA0 0xBF, [])
  else if b = 0xED then (Utf8State.pend 13 2 0x80 0x9F, [])
  else if b ≤ 0xEF then (Utf8State.pend (b - 0xE0) 2 0x80 0xBF, [])
  else if b = 0xF0 then (Utf8State.pend 0 3 0x90 0xBF, [])
  else if b ≤ 0xF3 then (Utf8State.pend (b - 0xF0) 3 0x80 0xBF, [])
  else if b = 0xF4 then (Utf8State.pend 4 3 0x80 0x8F, [])
  else (Utf8State.clean, [])

/-- One step of UTF-8 decoding with `errors="ignore"`: a byte outside the
admissible continuation range aborts the pending sequence (which is
dropped) and is itself reprocessed as a lead byte. -/
def utf8Step : Utf8State → Nat → Utf8State × List Char
  | Utf8State.clean, b => leadStep b
  | Utf8State.pend acc need lo hi, b =>
    if lo ≤ b ∧ b ≤ hi then
      if need = 1 then (Utf8State.clean, [Char.ofNat (acc * 64 + (b - 0x80))])
      else (Utf8State.pend (acc * 64 + (b - 0x80)) (need - 1) 0x80 0xBF, [])
    else leadStep b

/-- Run the decoder over a byte list; a sequence still pending at end of
input is dropped. -/
def utf8Run : Utf8State → List Nat → List Char
  | _, [] => []
  | st, b :: rest =>
    (utf8Step st b).2 ++ utf8Run (utf8Step st b).1 rest

/-- UTF-8 decoding with `errors="ignore"`, as performed by
`self.path.open("r", encoding="utf-8", errors="ignore")`: total on every
byte list; undecodable bytes are silently dropped. -/
def utf8Ignore (l : List Nat) : List Char := utf8Run Utf8State.clean l

/-- Universal-newline translation performed by Python text mode:
`"\r\n"` and a lone `"\r"` both become `"\n"`. -/
def translateNewlines : List Char → List Char
  | [] => []
  | '\r' :: '\n' :: rest => '\n' :: translateNewlines rest
  | '\r' :: rest => '\n' :: translateNewlines rest
  | c :: rest => c :: translateNewlines rest

/-- Split a character list at every `'\n'`; the separators are consumed.
`splitNl "a\nb" = [[a],[b]]`, `splitNl "" = [[]]`, `splitNl "\n" = [[],[]]`. -/
def splitNl : List Char → List (List Char)
  | [] => [[]]
  | c :: rest =>
    if c = '\n' then [] :: splitNl rest
    else
      match splitNl rest with
      | [] => [[c]]
      | l :: ls => (c :: l) :: ls

/-- The lines Python's text-file iteration yields after `rstrip("\n")` on
each: chunks between newlines, with no final empty chunk when the text ends
in a newline (and no lines at all for empty text). -/
def pyLines (text : List Char) : List (List Char) :=
  match text with
  | [] => []
  | _ =>
    let parts := splitNl text
    if parts.getLast? = some [] then parts.dropLast else parts

/-- `re.Pattern.search`: `true` iff some (possibly empty) contiguous
substring of `s` matches the pattern — unanchored, no normalization of `s`. -/
def patternSearch (p : RegularExpression Char) (s : List Char) : Bool :=
  (List.range (s.length + 1)).any fun i =>
    (List.range (s.length - i + 1)).any fun j =>
      p.rmatch ((s.drop i).take j)

/-- The regular expression matching exactly the literal string `cs`. -/
def litRe : List Char → RegularExpression Char
  | [] => 1
  | c :: cs => RegularExpression.comp (RegularExpression.char c) (litRe cs)

/-- The program's default pattern `ERROR|CRITICAL`. -/
def defaultPattern : RegularExpression Char :=
  RegularExpression.plus (litRe "ERROR".data) (litRe "CRITICAL".data)

/-- The mutable state of `Tailer` relevant to detection: the byte offset
`self.position` and the FIFO `self._queue` (queued alert line texts, oldest
first). -/
structure Tailer where
  position : Nat
  queue : List (List Char)
deriving DecidableEq, Repr

/-- A fresh `Tailer` as built by `Tailer.__init__`: position 0, empty queue. -/
def initTailer : Tailer := ⟨0, []⟩

/-- The decoded lines of the byte region of `content` starting at byte
offset `pos`. -/
def linesFrom (content : List Nat) (pos : Nat) : List (List Char) :=
  pyLines (translateNewlines (utf8Ignore (content.drop pos)))

/-- The decoded lines of the whole file. -/
def fileLines (content : List Nat) : List (List Char) :=
  linesFrom content 0

/-- `Tailer._read_new_lines` for an existing file with byte content
`content`: seek to `position`, decode and iterate the remaining lines,
enqueue every line the pattern matches, then set `position` to
`handle.tell()` — the end of file, or the old position if it was already
past it. Returns the updated state and the newly enqueued messages in
order. -/
def readNewLines (pat : RegularExpression Char) (content : List Nat) (t : Tailer) :
    Tailer × List (List Char) :=
  let newMsgs := (linesFrom content t.position).filter fun l => patternSearch pat l
  (⟨max t.position content.length, t.queue ++ newMsgs⟩, newMsgs)

/-- The only failure `_read_new_lines` can raise: `FileNotFoundError` from
`self.path.open` when the watched path does not exist. -/
inductive ReadErr where
  | fileNotFound
deriving DecidableEq, Repr

/-- `Tailer._read_new_lines` against a filesystem in which the watched path
holds `fs` (`none` = path absent). The body contains no exception handler,
so a missing file surfaces as an error and nothing is enqueued. -/
def readNewLinesFS (pat : RegularExpression Char) (fs : Option (List Nat)) (t : Tailer) :
    Except ReadErr (Tailer × List (List Char)) :=
  match fs with
  | none => Except.error ReadErr.fileNotFound
  | some content => Except.ok (readNewLines pat content t)

/-- `Tailer.on_modified`: ignore events for other paths, otherwise run the
read-and-match cycle; no exception handling. -/
def on_modified (pat : RegularExpression Char) (watched eventPath : String)
    (fs : Option (List Nat)) (t : Tailer) : Except ReadErr (Tailer × List (List Char)) :=
  if eventPath ≠ watched then Except.ok (t, [])
  else readNewLinesFS pat fs t

/-- `Tailer.on_created`: for the watched path, reset `position` to 0 and run
the read-and-match cycle; other paths are ignored; no exception handling. -/
def on_created (pat : RegularExpression Char) (watched eventPath : String)
    (fs : Option (List Nat)) (t : Tailer) : Except ReadErr (Tailer × List (List Char)) :=
  if eventPath = watched then readNewLinesFS pat fs { t with position := 0 }
  else Except.ok (t, [])

/-- `Tailer.start`: the priming read-and-match cycle `main` invokes once at
startup, with whatever offset the tailer currently holds. -/
def Tailer.start (pat : RegularExpression Char) (content : List Nat) (t : Tailer) :
    Tailer × List (List Char) :=
  readNewLines pat content t

/-- The byte encoding of an ASCII string (used for concrete inputs). -/
def asciiBytes (s : String) : List Nat := s.data.map Char.toNat

/-- The destination fields of `AlertConfig` (`pattern` is threaded
separately into the reader). Python's `if config.webhook:` and
`if config.slack_token and config.slack_channel:` test truthiness, so
`none` and the empty string both count as absent. -/
structure AlertConfig where
  webhook : Option String
  slack_token : Option String
  slack_channel : Option String
deriving DecidableEq, Repr

/-- Python truthiness of an `Optional[str]`. -/
def truthy : Option String → Bool
  | none => false
  | some s => !s.isEmpty

/-- An observable action of `send_alert`: an HTTP POST to the webhook URL
with JSON body `{"text": message}`, an HTTP POST to the Slack
`chat.postMessage` endpoint, or a printed `[WARN]` line. -/
inductive Delivery where
  | webhookPost (url : String) (text : String)
  | slackPost (token channel text : String)
  | warn (msg : String)
deriving DecidableEq, Repr

/-- `true` for a webhook delivery attempt. -/
def Delivery.isWebhookAttempt : Delivery → Bool
  | Delivery.webhookPost _ _ => true
  | _ => false

/-- `true` for a Slack delivery attempt. -/
def Delivery.isSlackAttempt : Delivery → Bool
  | Delivery.slackPost _ _ _ => true
  | _ => false

/-- `send_alert(message, config)`: attempt the webhook destination if
configured, then the Slack destination if configured. Each attempt's
`requests.RequestException` is caught in its own `try`/`except` and turns
into a warning print only; no retry, no escalation, and the function always
returns. `wfail`/`sfail` say whether the network makes the respective POST
fail. The returned list is the trace of actions, in order. -/
def send_alert (message : String) (config : AlertConfig) (wfail sfail : Bool) :
    List Delivery :=
  (if truthy config.webhook then
    Delivery.webhookPost (config.webhook.getD "") message ::
      (if wfail then [Delivery.warn "Failed to deliver webhook"] else [])
  else []) ++
  (if truthy config.slack_token && truthy config.slack_channel then
    Delivery.slackPost (config.slack_token.getD "") (config.slack_channel.getD "") message ::
      (if sfail then [Delivery.warn "Failed to send Slack alert"] else [])
  else [])

/-- The dispatcher loop `Tailer._process_queue`, restricted to the messages
it drains: each queued message is passed to `send_alert` in FIFO order;
`wf`/`sf` give the network outcome per message. -/
def processQueue (config : AlertConfig) (wf sf : String → Bool) :
    List String → List Delivery
  | [] => []
  | m :: rest => send_alert m config (wf m) (sf m) ++ processQueue config wf sf rest

/-- An external step acting on the watched file and the tailer: bytes
appended to the file, a filesystem modify/create event for some path, or a
direct read-and-match cycle (as in the priming call). -/
inductive Ev where
  | append (bs : List Nat)
  | modify (p : String)
  | create (p : String)
  | cycle
deriving DecidableEq

/-- The watched file's byte content together with the tailer state. -/
structure WState where
  content : List Nat
  tailer : Tailer
deriving DecidableEq, Repr

/-- One step of the system: appends grow the file; `on_modified` runs the
cycle when the event path is the watched path and ignores it otherwise;
`on_created` for the watched path resets the offset to 0 and then runs the
cycle; `cycle` runs the cycle directly. -/
def stepEv (pat : RegularExpression Char) (watched : String) (s : WState) : Ev → WState
  | Ev.append bs => { s with content := s.content ++ bs }
  | Ev.modify p =>
    if p = watched then { s with tailer := (readNewLines pat s.content s.tailer).1 } else s
  | Ev.create p =>
    if p = watched then
      { s with tailer := (readNewLines pat s.content { s.tailer with position := 0 }).1 }
    else s
  | Ev.cycle => { s with tailer := (readNewLines pat s.content s.tailer).1 }

/-! ### Helper lemmas -/

theorem head_filter_eq_find (p : List Char → Bool) (l : List (List Char)) :
    (l.filter p).head? = l.find? p := by
  induction l with
  | nil => rfl
  | cons a t ih => by_cases h : p a <;> simp [List.filter_cons, List.find?_cons, h, ih]

theorem splitNl_of_no_newline (txt : List Char) (h : '\n' ∉ txt) :
    splitNl txt = [txt] := by
  induction txt with
  | nil => rfl
  | cons c rest ih =>
    have hc : c ≠ '\n' := fun e => h (e ▸ List.mem_cons_self c rest)
    have hr : '\n' ∉ rest := fun m => h (List.mem_cons_of_mem _ m)
    simp [splitNl, hc, ih hr]

theorem pyLines_single (txt : List Char) (hne : txt ≠ []) (h : '\n' ∉ txt) :
    pyLines txt = [txt] := by
  match txt, hne with
  | c :: rest, _ => simp [pyLines, splitNl_of_no_newline _ h]

/-! ### Claim theorems -/

/-- C1: for a file whose content is the three lines `INFO ok`,
`ERROR disk full`, `CRITICAL oom` and the pattern `ERROR|CRITICAL`, a single
read-and-match cycle starting at offset 0 enqueues exactly two alert
messages, in order `ERROR disk full` then `CRITICAL oom` (and advances the
offset to the file's 37-byte end). -/
theorem single_cycle_two_alerts :
    readNewLines defaultPattern (asciiBytes "INFO ok\nERROR disk full\nCRITICAL oom\n")
        initTailer =
      ({ position := 37, queue := ["ERROR disk full".data, "CRITICAL oom".data] },
       ["ERROR disk full".data, "CRITICAL oom".data]) := by
  decide

/-- C2: running the read-and-match cycle twice in a row on an unchanged
file enqueues nothing on the second invocation — the second cycle returns
the state unchanged and an empty message list, because the offset has
advanced past every previously read byte. -/
theorem second_cycle_no_new_matches (pat : RegularExpression Char) (content : List Nat)
    (t : Tailer) :
    readNewLines pat content (readNewLines pat content t).1 =
      ((readNewLines pat content t).1, []) := by
  have hd : content.drop (max t.position content.length) = [] :=
    List.drop_eq_nil_of_le (le_max_right _ _)
  simp [readNewLines, linesFrom, hd, utf8Ignore, utf8Run, translateNewlines, pyLines,
    max_assoc, max_self]

/-- C8: when the watched path does not exist at read time, the read fails
with `FileNotFoundError`; neither `_read_new_lines` nor the `on_modified` /
`on_created` handlers catch it, so the error propagates out of the cycle
and no message is enqueued. -/
theorem missing_file_error_propagates (pat : RegularExpression Char) (watched : String)
    (t : Tailer) :
    readNewLinesFS pat none t = Except.error ReadErr.fileNotFound ∧
    on_modified pat watched watched none t = Except.error ReadErr.fileNotFound ∧
    on_created pat watched watched none t = Except.error ReadErr.fileNotFound := by
  refine ⟨rfl, ?_, ?_⟩ <;> simp [on_modified, on_created, readNewLinesFS]

/-- C9: with no webhook configured and not both Slack token and channel
present, `send_alert` performs no delivery call and raises nothing — the
message is silently discarded. -/
theorem no_destination_noop (m : String) (config : AlertConfig) (wfail sfail : Bool)
    (hw : truthy config.webhook = false)
    (hs : ¬(truthy config.slack_token = true ∧ truthy config.slack_channel = true)) :
    send_alert m config wfail sfail = [] := by
  have hsc : (truthy config.slack_token && truthy config.slack_channel) = false := by
    cases h1 : truthy config.slack_token <;> cases h2 : truthy config.slack_channel <;>
      simp_all
  simp [send_alert, hw, hsc]

/-- Witness for C9 at a concrete configuration (Slack channel present but
token absent, no webhook): delivery is a no-op. -/
theorem no_destination_noop_witness :
    truthy (none : Option String) = false ∧
    send_alert "ERROR x" ⟨none, none, some "C42"⟩ true true = [] :=
  ⟨by decide,
   no_destination_noop "ERROR x" ⟨none, none, some "C42"⟩ true true (by decide) (by decide)⟩

/-- C3: across any step of the system — appends, read-and-match cycles,
`on_modified` / `on_created` events — the offset is non-decreasing, except
an `on_created` event for the watched path, which resets the offset to 0
before the read (so the step's result is exactly a read from offset 0). -/
theorem offset_monotone (pat : RegularExpression Char) (watched : String) (s : WState) :
    (∀ e : Ev, e ≠ Ev.create watched →
      s.tailer.position ≤ (stepEv pat watched s e).tailer.position) ∧
    (stepEv pat watched s (Ev.create watched)).tailer =
      (readNewLines pat s.content { s.tailer with position := 0 }).1 := by
  constructor
  · intro e he
    cases e with
    | append bs => simp [stepEv]
    | modify p =>
      by_cases hp : p = watched <;> simp [stepEv, hp, readNewLines, le_max_left]
    | create p =>
      have hp : p ≠ watched := fun h => he (by rw [h])
      simp [stepEv, hp]
    | cycle => simp [stepEv, readNewLines, le_max_left]
  · simp [stepEv]

/-- Witness for C3: a concrete non-create step (a plain cycle on an empty
file) does not decrease the offset. -/
theorem offset_monotone_witness :
    (Ev.cycle ≠ Ev.create "app.log") ∧
    (⟨[], initTailer⟩ : WState).tailer.position ≤
      (stepEv defaultPattern "app.log" ⟨[], initTailer⟩ Ev.cycle).tailer.position :=
  ⟨by decide,
   (offset_monotone defaultPattern "app.log" ⟨[], initTailer⟩).1 Ev.cycle (by decide)⟩

/-- C4: appending bytes that decode to a nonempty newline-free text (a
partial final line, no trailing newline) after the current offset and then
running the cycle yields exactly that partial content as a line: it is
tested against the pattern, enqueued iff it matches, and the offset
advances past it to the new end of file. -/
theorem partial_trailing_line (pat : RegularExpression Char) (content more : List Nat)
    (t : Tailer)
    (hpos : t.position = content.length)
    (hne : translateNewlines (utf8Ignore more) ≠ [])
    (hnl : '\n' ∉ translateNewlines (utf8Ignore more)) :
    readNewLines pat (content ++ more) t =
      ({ position := content.length + more.length,
         queue := t.queue ++
           if patternSearch pat (translateNewlines (utf8Ignore more)) then
             [translateNewlines (utf8Ignore more)] else [] },
       if patternSearch pat (translateNewlines (utf8Ignore more)) then
         [translateNewlines (utf8Ignore more)] else []) := by
  have hd : (content ++ more).drop t.position = more := by
    rw [hpos]; exact List.drop_left content more
  have hmax : max t.position (content ++ more).length = content.length + more.length := by
    rw [hpos, List.length_append]
    exact Nat.max_eq_right (Nat.le_add_right _ _)
  simp only [readNewLines, linesFrom, hd, hmax,
    pyLines_single (translateNewlines (utf8Ignore more)) hne hnl]
  by_cases h : patternSearch pat (translateNewlines (utf8Ignore more)) <;>
    simp [List.filter_cons, h]

/-- Witness for C4: appending `"CRITICAL oo"` (no trailing newline) to a
fully read two-byte file enqueues it and moves the offset to the new end. -/
theorem partial_trailing_line_witness :
    ({ position := 2, queue := [] } : Tailer).position = (asciiBytes "a\n").length ∧
    readNewLines defaultPattern (asciiBytes "a\n" ++ asciiBytes "CRITICAL oo")
        { position := 2, queue := [] } =
      ({ position := 13, queue := ["CRITICAL oo".data] }, ["CRITICAL oo".data]) := by
  refine ⟨by decide, ?_⟩
  have h := partial_trailing_line defaultPattern (asciiBytes "a\n") (asciiBytes "CRITICAL oo")
    { position := 2, queue := [] } (by decide) (by decide) (by decide)
  rw [h]
  decide

/-- C6: if the file already contains a matching line at startup, the
priming cycle (`Tailer.start` invoked by `main` on a fresh tailer with
offset 0) enqueues it, and the first message in the queue after startup is
the first matching line of the file. -/
theorem startup_replay (pat : RegularExpression Char) (content : List Nat) (l : List Char)
    (h : (fileLines content).find? (fun s => patternSearch pat s) = some l) :
    (Tailer.start pat content initTailer).1.queue.head? = some l ∧
    (Tailer.start pat content initTailer).2.head? = some l := by
  have hq : (Tailer.start pat content initTailer).2 =
      (fileLines content).filter (fun s => patternSearch pat s) := by
    simp [Tailer.start, readNewLines, initTailer, fileLines]
  have hqq : (Tailer.start pat content initTailer).1.queue =
      (fileLines content).filter (fun s => patternSearch pat s) := by
    simp [Tailer.start, readNewLines, initTailer, fileLines]
  rw [hq, hqq, head_filter_eq_find, h]
  exact ⟨rfl, rfl⟩

/-- Witness for C6: a pre-existing `ERROR boot` line is the first queued
message after the priming read. -/
theorem startup_replay_witness :
    (fileLines (asciiBytes "ok\nERROR boot\nok\n")).find?
        (fun s => patternSearch defaultPattern s) = some "ERROR boot".data ∧
    (Tailer.start defaultPattern (asciiBytes "ok\nERROR boot\nok\n")
        initTailer).1.queue.head? = some "ERROR boot".data :=
  ⟨by decide,
   (startup_replay defaultPattern (asciiBytes "ok\nERROR boot\nok\n") "ERROR boot".data
     (by decide)).1⟩

/-- C7: with both destinations configured, each delivered message produces
exactly one webhook attempt and exactly one Slack attempt regardless of
which attempts fail (failure at one destination never suppresses the other
and nothing is retried); every action besides the two attempts is only a
logged warning; and the dispatcher goes on to process the remaining queued
messages. -/
theorem best_effort_isolation (m : String) (config : AlertConfig) (wfail sfail : Bool)
    (rest : List String) (wf sf : String → Bool)
    (hw : truthy config.webhook = true)
    (hs : truthy config.slack_token = true)
    (hc : truthy config.slack_channel = true) :
    ((send_alert m config wfail sfail).countP (fun d => d.isWebhookAttempt) = 1) ∧
    ((send_alert m config wfail sfail).countP (fun d => d.isSlackAttempt) = 1) ∧
    (wfail = true →
      Delivery.warn "Failed to deliver webhook" ∈ send_alert m config wfail sfail) ∧
    (sfail = true →
      Delivery.warn "Failed to send Slack alert" ∈ send_alert m config wfail sfail) ∧
    (∀ d ∈ send_alert m config wfail sfail,
      d.isWebhookAttempt = true ∨ d.isSlackAttempt = true ∨ ∃ w, d = Delivery.warn w) ∧
    (processQueue config wf sf (m :: rest) =
      send_alert m config (wf m) (sf m) ++ processQueue config wf sf rest) := by
  refine ⟨?_, ?_, ?_, ?_, ?_, rfl⟩
  · cases wfail <;> cases sfail <;>
      simp [send_alert, hw, hs, hc, List.countP_cons, List.countP_append,
        Delivery.isWebhookAttempt, Delivery.isSlackAttempt]
  · cases wfail <;> cases sfail <;>
      simp [send_alert, hw, hs, hc, List.countP_cons, List.countP_append,
        Delivery.isWebhookAttempt, Delivery.isSlackAttempt]
  · cases wfail <;> cases sfail <;> simp [send_alert, hw, hs, hc]
  · cases wfail <;> cases sfail <;> simp [send_alert, hw, hs, hc]
  · intro d _
    cases d <;> simp [Delivery.isWebhookAttempt, Delivery.isSlackAttempt]

/-- Witness for C7 at a concrete configuration where both deliveries fail:
both destinations are still attempted exactly once each. -/
theorem best_effort_isolation_witness :
    truthy (some "https://h.test/hook") = true ∧
    (send_alert "ERROR x" ⟨some "https://h.test/hook", some "tk", some "ch"⟩ true
        true).countP (fun d => d.isWebhookAttempt) = 1 :=
  ⟨by decide,
   (best_effort_isolation "ERROR x" ⟨some "https://h.test/hook", some "tk", some "ch"⟩
     true true [] (fun _ => true) (fun _ => true) (by decide) (by decide) (by decide)).1⟩

/-- C5: `pattern.search(line)` is truthy exactly when the pattern matches
some contiguous substring of the line — an unanchored search, not a
full-line match, over the line exactly as read (no normalization; literal
characters compare by equality, so matching is case-sensitive unless the
pattern itself encodes both cases, as the two concrete conjuncts show). -/
theorem pattern_search_correct (p : RegularExpression Char) (line : List Char) :
    (patternSearch p line = true ↔
      ∃ pre mid post, line = pre ++ mid ++ post ∧ mid ∈ p.matches') ∧
    patternSearch (litRe "ERROR".data) "an ERROR here".data = true ∧
    patternSearch (litRe "ERROR".data) "an error here".data = false := by
  refine ⟨?_, by decide, by decide⟩
  unfold patternSearch
  simp only [List.any_eq_true, List.mem_range]
  constructor
  · rintro ⟨i, _, j, _, hm⟩
    refine ⟨line.take i, (line.drop i).take j, (line.drop i).drop j, ?_,
      (RegularExpression.rmatch_iff_matches' _ _).mp hm⟩
    rw [List.append_assoc, List.take_append_drop, List.take_append_drop]
  · rintro ⟨pre, mid, post, rfl, hmem⟩
    refine ⟨pre.length, ?_, mid.length, ?_, ?_⟩
    · simp only [List.length_append]; omega
    · simp only [List.length_append]; omega
    · rw [List.append_assoc, List.drop_left, List.take_left]
      exact (RegularExpression.rmatch_iff_matches' _ _).mpr hmem

/-- C10: the reader decodes with `errors="ignore"`, so reading an existing
file never fails for any byte content, valid UTF-8 or not; undecodable
bytes are silently dropped (an invalid lead byte like `0xFF` is skipped,
and a sequence truncated at end of input, like the trailing `0xCC`,
vanishes). -/
theorem read_never_decode_error (pat : RegularExpression Char) :
    (∀ (content : List Nat) (t : Tailer),
      ∃ r, readNewLinesFS pat (some content) t = Except.ok r) ∧
    (∀ bs : List Nat, utf8Ignore (255 :: bs) = utf8Ignore bs) ∧
    utf8Ignore [255, 69, 204] = ['E'] := by
  refine ⟨fun content t => ⟨readNewLines pat content t, rfl⟩, ?_, by decide⟩
  intro bs
  simp [utf8Ignore, utf8Run, utf8Step, leadStep]
